import Mathlib

/-!
Verification of the synchronization core of the dotfile manager
(src/handlers/dotfile_handler.py).

The embedding models Python pathlib PurePosixPath values as a root marker
(0 = relative, 1 = rooted at "/", 2 = rooted at "//") together with the list
of path components, exactly as the pathlib parser produces them: splitting
on "/", dropping empty components and "." components.  Strings are handled
through their character lists so that every operation is executable and
provable.  Machine-level file copying is out of scope of the source file and
is represented by a handler capability record; the filesystem seen by
Path.is_dir / Path.is_file is an oracle parameter.
-/

namespace Nomad

/-- A path component, as a list of characters. -/
abbrev Part := List Char

/-- Model of a Python pathlib PurePosixPath value: `root` is 0 for a relative
path, 1 for a path rooted at "/", 2 for a path rooted at "//" (POSIX keeps a
double leading slash); `parts` is the list of components with empty and "."
components already dropped, as the pathlib parser stores them. -/
structure PyPath where
  root : Nat
  parts : List Part
deriving DecidableEq

/-- Splitting a character list on the separator, as Python str.split("/"):
always returns at least one (possibly empty) component. -/
def splitSl : List Char → List Part
  | [] => [[]]
  | c :: rest =>
    let s := splitSl rest
    if c = '/' then [] :: s else (c :: s.headD []) :: s.tail

/-- A component survives pathlib parsing when it is neither empty nor ".". -/
def keepPart (p : Part) : Bool := p ≠ [] && p ≠ ['.']

/-- The components pathlib keeps from a raw character list. -/
def parseParts (cs : List Char) : List Part := (splitSl cs).filter keepPart

/-- The root marker pathlib derives from the raw character list: "//" exactly
(third character not a slash) gives the double root, any other leading slash
gives the single root. -/
def parseRoot (cs : List Char) : Nat :=
  if cs.head? = some '/' then
    if cs.tail.head? = some '/' ∧ cs.tail.tail.head? ≠ some '/' then 2 else 1
  else 0

/-- `Path(s)`: parse a string into a PyPath, as the pathlib constructor. -/
def pyPath (s : String) : PyPath := ⟨parseRoot s.data, parseParts s.data⟩

/-- Joining parts with "/" separators, as pathlib renders the body of a path. -/
def interSl : List Part → List Char
  | [] => []
  | p :: rest => if rest = [] then p else p ++ '/' :: interSl rest

/-- `str(path)`: the string form of a PyPath; a rootless path with no parts
prints as ".". -/
def PyPath.render (p : PyPath) : List Char :=
  match p.root with
  | 0 => if p.parts = [] then ['.'] else interSl p.parts
  | 1 => '/' :: interSl p.parts
  | _ => '/' :: '/' :: interSl p.parts

/-- `str(path)` as a String. -/
def PyPath.str (p : PyPath) : String := String.mk p.render

/-- Python str.startswith: prefix test on the character lists. -/
def pyStartsWith (s pre : String) : Bool := pre.data.isPrefixOf s.data

/-- Python str.replace("~/", ""): remove every occurrence of "~/" from left to
right (the only replacement the source performs). -/
def replaceTildeSlash : List Char → List Char
  | '~' :: '/' :: rest => replaceTildeSlash rest
  | c :: rest => c :: replaceTildeSlash rest
  | [] => []

/-- str.replace("~/", "") lifted to String. -/
def pyReplace (s : String) : String := String.mk (replaceTildeSlash s.data)

/-- Python / operator on paths: an absolute right operand wins, otherwise the
components are appended. -/
def PyPath.join (p q : PyPath) : PyPath :=
  if q.root ≠ 0 then q else ⟨p.root, p.parts ++ q.parts⟩

/-- Well-formedness of a PyPath as produced by parsing: every component is
nonempty, is not ".", and contains no separator. -/
def PyPath.WF (p : PyPath) : Prop :=
  ∀ part ∈ p.parts, part ≠ [] ∧ part ≠ ['.'] ∧ '/' ∉ part

/-- The Python exceptions the modelled code can raise.
PathNotUnderHomeError is modelled from the spec: the spec names it in its
error-handling design, but the source defines no such class; it is included
so claims that mention it can be stated, and no modelled operation
produces it. -/
inductive PyError where
  | valueError (msg : String)
  | runtimeError (msg : String)
  | osError (msg : String)
  | unresolvedPathTypeError (msg : String)
  | pathNotUnderHomeError (msg : String)
deriving DecidableEq

/-- The message an exception prints (what f-string interpolation of the
exception shows). -/
def PyError.message : PyError → String
  | .valueError m => m
  | .runtimeError m => m
  | .osError m => m
  | .unresolvedPathTypeError m => m
  | .pathNotUnderHomeError m => m

/-- Whether a result is the spec error PathNotUnderHomeError. -/
def raisesPathNotUnderHome (r : Except PyError PyPath) : Bool :=
  match r with
  | .error (.pathNotUnderHomeError _) => true
  | _ => false

/-- The process environment Python path resolution reads: the home directory
(HOME), the current working directory (os.getcwd), and the home directories
of named users (for "~user" expansion; none when the user is unknown). -/
structure PyEnv where
  home : PyPath
  cwd : PyPath
  users : List Char → Option PyPath

/-- Path.expanduser: on a rootless path whose first component begins with
"~", replace that component by the matching home directory; "~" expands to
HOME, "~user" to the home of that user, raising RuntimeError when it cannot
be determined.  All other paths are returned unchanged. -/
def expanduser (env : PyEnv) (path : PyPath) : Except PyError PyPath :=
  match path.root, path.parts with
  | 0, t :: rest =>
    if t.head? = some '~' then
      if t = ['~'] then .ok ⟨env.home.root, env.home.parts ++ rest⟩
      else
        match env.users (t.drop 1) with
        | some hd => .ok ⟨hd.root, hd.parts ++ rest⟩
        | none => .error (.runtimeError "Could not determine home directory.")
    else .ok path
  | _, _ => .ok path

/-- Path.absolute: an already rooted path is returned unchanged, otherwise the
current working directory is prefixed.  No normalization of ".." happens. -/
def pyAbsolute (env : PyEnv) (path : PyPath) : PyPath :=
  if path.root ≠ 0 then path else ⟨env.cwd.root, env.cwd.parts ++ path.parts⟩

/-- DotfileHandler._get_absolute: path.expanduser().absolute(). -/
def _get_absolute (env : PyEnv) (path : PyPath) : Except PyError PyPath :=
  match expanduser env path with
  | .error e => .error e
  | .ok q => .ok (pyAbsolute env q)

/-- DotfileHandler._get_relative: path.relative_to("~").  Lexical: succeeds
exactly when the path is rootless and its first component is the literal "~",
dropping that component; otherwise raises ValueError. -/
def _get_relative (path : PyPath) : Except PyError PyPath :=
  if path.root = 0 ∧ path.parts.head? = some ['~'] then .ok ⟨0, path.parts.tail⟩
  else .error (.valueError (path.str ++ " is not in the subpath of ~"))

/-- DotfileHandler._get_path_category: str(path).startswith("/") gives
"global", str(path).startswith("~") gives "local", anything else "custom". -/
def _get_path_category (path : PyPath) : String :=
  if pyStartsWith path.str "/" then "global"
  else if pyStartsWith path.str "~" then "local"
  else "custom"

/-- What a stat of a path can report to Path.is_dir / Path.is_file: a
directory, a regular file, a missing path (the OSError kinds is_dir and
is_file swallow), or a stat failure is_dir and is_file propagate (such as a
permission error), carrying its message. -/
inductive FsStat where
  | dir
  | file
  | missing
  | denied (msg : String)

/-- DotfileHandler._get_path_type: "dir" when path.is_dir(), else "file" when
path.is_file(), else "unknown"; a non-ignored stat error propagates out of
is_dir as an OSError (documented pathlib behavior). -/
def _get_path_type (fs : PyPath → FsStat) (path : PyPath) : Except PyError String :=
  match fs path with
  | .dir => .ok "dir"
  | .file => .ok "file"
  | .missing => .ok "unknown"
  | .denied msg => .error (.osError msg)

/-- The copy capability a concrete handler offers: update(src, dest) and
bootstrap(src, dest, backup, overwrite), each either succeeding or raising. -/
structure Handler where
  update : PyPath → PyPath → Except PyError Unit
  bootstrap : PyPath → PyPath → Bool → Bool → Except PyError Unit

/-- Modelled from the spec: DotfileHandlerFactory.get_handler
(src/handlers/factory.py is not under src/).  The spec requires a file
variant and a directory variant of the copy capability, plus an unknown
variant whose operations always fail with UnresolvedPathTypeError; byte-level
copy mechanics are out of scope, so the file and directory handlers here
simply succeed. -/
def specFactory : String → Handler := fun path_type =>
  if path_type = "dir" ∨ path_type = "file" then
    { update := fun _ _ => .ok (), bootstrap := fun _ _ _ _ => .ok () }
  else
    { update := fun _ _ => .error (.unresolvedPathTypeError "could not resolve path type"),
      bootstrap := fun _ _ _ _ => .error (.unresolvedPathTypeError "could not resolve path type") }

/-- The state __init__ stores on a DotfileHandler instance. -/
structure DotfileHandler where
  path : PyPath
  local_base : String
  absolute : PyPath
  relative : PyPath
  category : String
deriving DecidableEq

/-- DotfileHandler.__init__(path): stores Path(path) and local_base
"dotfiles", then computes self.absolute, then self.relative, then
self.category, in that order; an exception in any step propagates and
construction fails. -/
def DotfileHandler.init (env : PyEnv) (s : String) : Except PyError DotfileHandler :=
  let path := pyPath s
  match _get_absolute env path with
  | .error e => .error e
  | .ok a =>
    match _get_relative path with
    | .error e => .error e
    | .ok r =>
      .ok { path := path, local_base := "dotfiles", absolute := a,
            relative := r, category := _get_path_category path }

/-- DotfileHandler._get_local_dest: the mirror-side destination for the pull
direction, built by f-string interpolation and re-parsed by Path(...). -/
def DotfileHandler._get_local_dest (self : DotfileHandler) (path : PyPath) : PyPath :=
  if self.category = "global" then pyPath (self.local_base ++ "/global/" ++ path.str)
  else if self.category = "local" then pyPath (self.local_base ++ "/local/" ++ self.relative.str)
  else pyPath (self.local_base ++ "/custom/" ++ self.relative.str)

/-- DotfileHandler._get_local_src: the mirror-side source for the push
direction.  path_stripped starts as the empty string and is only assigned
(str(path) with every "~/" removed) when str(path) starts with "~". -/
def DotfileHandler._get_local_src (self : DotfileHandler) (path : PyPath) : PyPath :=
  let path_stripped := if pyStartsWith path.str "~" then pyReplace path.str else ""
  if self.category = "global" then pyPath (self.local_base ++ "/global/" ++ path_stripped)
  else if self.category = "local" then pyPath (self.local_base ++ "/local/" ++ path_stripped)
  else pyPath (self.local_base ++ "/custom/" ++ path_stripped)

/-- Outcome of one pull/push call: completed, or skipped with the printed
notice (the declared path and the message of the caught exception). -/
inductive SyncOutcome where
  | done
  | skipped (path : String) (msg : String)
deriving DecidableEq

/-- DotfileHandler.update (pull): compute the destination, determine the path
type of self.absolute, obtain a handler from the factory, and run
handler.update inside try/except; only the handler call is inside the try,
and a caught exception becomes a printed skip notice. -/
def DotfileHandler.update (self : DotfileHandler) (factory : String → Handler)
    (fs : PyPath → FsStat) : Except PyError SyncOutcome :=
  let destination := self._get_local_dest self.absolute
  match _get_path_type fs self.absolute with
  | .error e => .error e
  | .ok path_type =>
    match (factory path_type).update self.absolute destination with
    | .ok _ => .ok .done
    | .error e => .ok (.skipped self.path.str e.message)

/-- DotfileHandler.bootstrap (push): compute the mirror source from
self.path, determine its path type, obtain a handler, and run
handler.bootstrap(src, self.absolute, backup, overwrite) inside try/except;
only the handler call is inside the try. -/
def DotfileHandler.bootstrap (self : DotfileHandler) (factory : String → Handler)
    (fs : PyPath → FsStat) (backup overwrite : Bool) : Except PyError SyncOutcome :=
  let src := self._get_local_src self.path
  match _get_path_type fs src with
  | .error e => .error e
  | .ok path_type =>
    match (factory path_type).bootstrap src self.absolute backup overwrite with
    | .ok _ => .ok .done
    | .error e => .ok (.skipped self.path.str e.message)

/-- A concrete environment: home and cwd are /root, no other users known. -/
def env0 : PyEnv :=
  { home := pyPath "/root", cwd := pyPath "/root", users := fun _ => none }

/-- The entry the code builds for the declared path "~/.bashrc" under env0. -/
def entry0 : DotfileHandler :=
  { path := pyPath "~/.bashrc", local_base := "dotfiles",
    absolute := pyPath "/root/.bashrc", relative := pyPath ".bashrc",
    category := "local" }

/-- A hypothetical instance with category "global" for the declared path
/etc/hosts (no such instance is actually constructible, since __init__
raises on that path; the record is the input the mapping methods would see). -/
def gEntry : DotfileHandler :=
  { path := pyPath "/etc/hosts", local_base := "dotfiles",
    absolute := pyPath "/etc/hosts", relative := pyPath ".",
    category := "global" }

/-- A hypothetical instance with category "custom" for the declared path
foo/bar (not constructible either, for the same reason). -/
def cEntry : DotfileHandler :=
  { path := pyPath "foo/bar", local_base := "dotfiles",
    absolute := pyPath "/root/foo/bar", relative := pyPath ".",
    category := "custom" }

theorem splitSl_ne_nil (l : List Char) : splitSl l ≠ [] := by
  cases l with
  | nil => simp [splitSl]
  | cons c rest =>
    simp only [splitSl]
    split <;> simp

theorem splitSl_cons_sep (rest : List Char) : splitSl ('/' :: rest) = [] :: splitSl rest := by
  simp [splitSl]

theorem splitSl_cons_nonsep (c : Char) (rest : List Char) (hc : c ≠ '/') :
    splitSl (c :: rest) = (c :: (splitSl rest).headD []) :: (splitSl rest).tail := by
  simp [splitSl, hc]

theorem splitSl_sep_append (xs ys : List Char) (h : '/' ∉ xs) :
    splitSl (xs ++ '/' :: ys) = xs :: splitSl ys := by
  induction xs with
  | nil => simp [splitSl_cons_sep]
  | cons c t ih =>
    have hc : c ≠ '/' := by intro hcc; exact h (by simp [hcc])
    have ht : '/' ∉ t := fun hm => h (List.mem_cons_of_mem _ hm)
    rw [List.cons_append, splitSl_cons_nonsep c _ hc, ih ht]
    simp

theorem splitSl_no_sep (xs : List Char) (h : '/' ∉ xs) : splitSl xs = [xs] := by
  induction xs with
  | nil => rfl
  | cons c t ih =>
    have hc : c ≠ '/' := by intro hcc; exact h (by simp [hcc])
    have ht : '/' ∉ t := fun hm => h (List.mem_cons_of_mem _ hm)
    rw [splitSl_cons_nonsep c t hc, ih ht]
    simp

theorem splitSl_no_sep_parts (l : List Char) : ∀ part ∈ splitSl l, '/' ∉ part := by
  induction l with
  | nil =>
    intro part hp
    simp [splitSl] at hp
    simp [hp]
  | cons c t ih =>
    intro part hp
    by_cases hc : c = '/'
    · subst hc
      rw [splitSl_cons_sep] at hp
      rcases List.mem_cons.mp hp with rfl | h2
      · simp
      · exact ih part h2
    · rw [splitSl_cons_nonsep c t hc] at hp
      obtain ⟨a, b, e⟩ : ∃ a b, splitSl t = a :: b := by
        cases e : splitSl t with
        | nil => exact absurd e (splitSl_ne_nil t)
        | cons a b => exact ⟨a, b, rfl⟩
      rw [e] at hp
      simp only [List.headD_cons, List.tail_cons] at hp
      have ha : '/' ∉ a := ih a (by rw [e]; exact List.mem_cons_self a b)
      rcases List.mem_cons.mp hp with rfl | h2
      · intro hmem
        rcases List.mem_cons.mp hmem with h1 | h1
        · exact hc h1.symm
        · exact ha h1
      · exact ih part (by rw [e]; exact List.mem_cons_of_mem a h2)

theorem keepPart_iff (p : Part) : keepPart p = true ↔ p ≠ [] ∧ p ≠ ['.'] := by
  simp [keepPart]

theorem pyPath_WF (s : String) : (pyPath s).WF := by
  intro part hp
  simp only [pyPath, parseParts] at hp
  have h1 : keepPart part = true := List.of_mem_filter hp
  have h2 : part ∈ splitSl s.data := List.mem_of_mem_filter hp
  have h3 := (keepPart_iff part).mp h1
  exact ⟨h3.1, h3.2, splitSl_no_sep_parts _ part h2⟩

theorem interSl_singleton (p : Part) : interSl [p] = p := by
  simp [interSl]

theorem interSl_cons (p q : Part) (t : List Part) :
    interSl (p :: q :: t) = p ++ '/' :: interSl (q :: t) := by
  simp [interSl]

theorem splitSl_interSl (ps : List Part) (hne : ps ≠ []) (h : ∀ part ∈ ps, '/' ∉ part) :
    splitSl (interSl ps) = ps := by
  induction ps with
  | nil => cases hne rfl
  | cons p t ih =>
    cases t with
    | nil => rw [interSl_singleton, splitSl_no_sep p (h p (by simp))]
    | cons q r =>
      rw [interSl_cons, splitSl_sep_append p _ (h p (by simp))]
      rw [ih (by simp) (fun x hx => h x (List.mem_cons_of_mem _ hx))]

theorem parseParts_render (p : PyPath) (h : p.WF) : parseParts p.render = p.parts := by
  obtain ⟨r, parts⟩ := p
  have hk : ∀ part ∈ parts, keepPart part = true := by
    intro part hp
    exact (keepPart_iff part).mpr ⟨(h part hp).1, (h part hp).2.1⟩
  have hs : ∀ part ∈ parts, '/' ∉ part := fun part hp => (h part hp).2.2
  have hfilter : List.filter keepPart parts = parts := List.filter_eq_self.mpr hk
  have h0 : keepPart ([] : Part) = false := rfl
  cases r with
  | zero =>
    cases parts with
    | nil => rfl
    | cons p0 rest =>
      show parseParts (PyPath.render ⟨0, p0 :: rest⟩) = p0 :: rest
      have hrend : PyPath.render ⟨0, p0 :: rest⟩ = interSl (p0 :: rest) := by
        simp [PyPath.render]
      rw [hrend, parseParts, splitSl_interSl (p0 :: rest) (by simp) hs, hfilter]
  | succ r1 =>
    cases r1 with
    | zero =>
      cases parts with
      | nil => rfl
      | cons p0 rest =>
        show parseParts ('/' :: interSl (p0 :: rest)) = p0 :: rest
        rw [parseParts, splitSl_cons_sep, splitSl_interSl (p0 :: rest) (by simp) hs,
          List.filter_cons, h0]
        simpa using hfilter
    | succ r2 =>
      cases parts with
      | nil => rfl
      | cons p0 rest =>
        show parseParts ('/' :: '/' :: interSl (p0 :: rest)) = p0 :: rest
        rw [parseParts, splitSl_cons_sep, splitSl_cons_sep,
          splitSl_interSl (p0 :: rest) (by simp) hs, List.filter_cons, h0,
          List.filter_cons, h0]
        simpa using hfilter

theorem parseRoot_cons_nonsep (c : Char) (t : List Char) (hc : c ≠ '/') :
    parseRoot (c :: t) = 0 := by
  simp [parseRoot, hc]

theorem render_of_root_ne (r : Nat) (parts : List Part) (h : r ≠ 0) :
    ∃ t, PyPath.render ⟨r, parts⟩ = '/' :: t := by
  cases r with
  | zero => cases h rfl
  | succ r1 =>
    cases r1 with
    | zero => exact ⟨interSl parts, rfl⟩
    | succ r2 => exact ⟨'/' :: interSl parts, rfl⟩

theorem category_of_root_ne (p : PyPath) (h : p.root ≠ 0) :
    _get_path_category p = "global" := by
  obtain ⟨r, parts⟩ := p
  obtain ⟨t, ht⟩ := render_of_root_ne r parts h
  have hsw : pyStartsWith (PyPath.str ⟨r, parts⟩) "/" = true := by
    rw [pyStartsWith, PyPath.str, ht]
    have hdata : ("/").data = ['/'] := rfl
    rw [hdata]
    simp [List.isPrefixOf]
  simp [_get_path_category, hsw]

theorem render_of_tilde_head (hd : List Char) (rest : List Part) :
    ∃ t, PyPath.render ⟨0, ('~' :: hd) :: rest⟩ = '~' :: t := by
  cases rest with
  | nil => exact ⟨hd, by simp [PyPath.render, interSl]⟩
  | cons q r =>
    refine ⟨hd ++ '/' :: interSl (q :: r), ?_⟩
    simp [PyPath.render, interSl_cons]

theorem category_of_tilde_head (hd : List Char) (rest : List Part) :
    _get_path_category ⟨0, ('~' :: hd) :: rest⟩ = "local" := by
  obtain ⟨t, ht⟩ := render_of_tilde_head hd rest
  have hsw1 : pyStartsWith (PyPath.str ⟨0, ('~' :: hd) :: rest⟩) "/" = false := by
    rw [pyStartsWith, PyPath.str, ht]
    have hdata : ("/").data = ['/'] := rfl
    rw [hdata]
    simp [List.isPrefixOf]
  have hsw2 : pyStartsWith (PyPath.str ⟨0, ('~' :: hd) :: rest⟩) "~" = true := by
    rw [pyStartsWith, PyPath.str, ht]
    have hdata : ("~").data = ['~'] := rfl
    rw [hdata]
    simp [List.isPrefixOf]
  simp [_get_path_category, hsw1, hsw2]

theorem expanduser_tilde (env : PyEnv) (p : PyPath) (rest : List Part)
    (h0 : p.root = 0) (hp : p.parts = ['~'] :: rest) :
    expanduser env p = .ok ⟨env.home.root, env.home.parts ++ rest⟩ := by
  rw [expanduser, h0, hp]
  rfl

theorem _get_relative_cases (p : PyPath) :
    (p.root = 0 ∧ p.parts.head? = some ['~'] ∧ _get_relative p = .ok ⟨0, p.parts.tail⟩) ∨
      (¬(p.root = 0 ∧ p.parts.head? = some ['~']) ∧
        _get_relative p = .error (.valueError (p.str ++ " is not in the subpath of ~"))) := by
  by_cases hc : p.root = 0 ∧ p.parts.head? = some ['~']
  · exact Or.inl ⟨hc.1, hc.2, by rw [_get_relative, if_pos hc]⟩
  · exact Or.inr ⟨hc, by rw [_get_relative, if_neg hc]⟩

theorem init_ok_shape (env : PyEnv) (s : String) (h : DotfileHandler)
    (hh : env.home.root ≠ 0) (hi : DotfileHandler.init env s = .ok h) :
    ∃ rest, (pyPath s).root = 0 ∧ (pyPath s).parts = ['~'] :: rest ∧
      h = { path := pyPath s, local_base := "dotfiles",
            absolute := ⟨env.home.root, env.home.parts ++ rest⟩,
            relative := ⟨0, rest⟩,
            category := _get_path_category (pyPath s) } := by
  simp only [DotfileHandler.init] at hi
  rcases _get_relative_cases (pyPath s) with ⟨h0, hhead, hrel⟩ | ⟨_, hrel⟩
  · obtain ⟨rest, hparts⟩ := List.head?_eq_some_iff.mp hhead
    refine ⟨rest, h0, hparts, ?_⟩
    have hexp := expanduser_tilde env (pyPath s) rest h0 hparts
    have habs : _get_absolute env (pyPath s) =
        .ok ⟨env.home.root, env.home.parts ++ rest⟩ := by
      simp only [_get_absolute, hexp]
      simp only [pyAbsolute]
      simp [hh]
    rw [habs, hrel] at hi
    simp only [Except.ok.injEq] at hi
    rw [← hi]
    have htail : (pyPath s).parts.tail = rest := by rw [hparts]; rfl
    rw [htail]
  · cases e1 : _get_absolute env (pyPath s) with
    | error e => rw [e1] at hi; exact absurd hi (by simp)
    | ok a => rw [e1, hrel] at hi; exact absurd hi (by simp)

theorem pyPath_append_mid (mid : Part) (hm : '/' ∉ mid) (hk : keepPart mid = true)
    (p : PyPath) (h : p.WF) :
    pyPath (String.mk ("dotfiles".data ++ '/' :: (mid ++ '/' :: p.render))) =
      ⟨0, "dotfiles".data :: mid :: p.parts⟩ := by
  have hd : '/' ∉ "dotfiles".data := by decide
  have hkd : keepPart "dotfiles".data = true := by decide
  rw [pyPath]
  have hXdata : (String.mk ("dotfiles".data ++ '/' :: (mid ++ '/' :: p.render))).data
      = "dotfiles".data ++ '/' :: (mid ++ '/' :: p.render) := rfl
  rw [hXdata]
  have hroot : parseRoot ("dotfiles".data ++ '/' :: (mid ++ '/' :: p.render)) = 0 := by
    have hform : "dotfiles".data ++ '/' :: (mid ++ '/' :: p.render)
        = 'd' :: ("otfiles".data ++ '/' :: (mid ++ '/' :: p.render)) := rfl
    rw [hform]
    exact parseRoot_cons_nonsep _ _ (by decide)
  have hparts : parseParts ("dotfiles".data ++ '/' :: (mid ++ '/' :: p.render))
      = "dotfiles".data :: mid :: p.parts := by
    rw [parseParts, splitSl_sep_append _ _ hd, splitSl_sep_append _ _ hm,
      List.filter_cons, hkd, List.filter_cons, hk]
    have hrp : List.filter keepPart (splitSl p.render) = p.parts := by
      have h2 := parseParts_render p h
      rwa [parseParts] at h2
    simp [hrp]
  rw [hroot, hparts]

/-- Claim C1 (code bug): the claim requires construction to succeed for every
declared path with the home-relative form computed only for local entries, but
__init__ computes self.relative unconditionally via Path.relative_to("~"),
which raises ValueError for the global path /etc/hosts and for the custom path
foo/bar; construction therefore fails for every non-local declared path. -/
theorem C1_construction_fails_for_nonlocal :
    DotfileHandler.init env0 "/etc/hosts" =
      .error (.valueError "/etc/hosts is not in the subpath of ~") ∧
    _get_path_category (pyPath "/etc/hosts") = "global" ∧
    DotfileHandler.init env0 "foo/bar" =
      .error (.valueError "foo/bar is not in the subpath of ~") ∧
    _get_path_category (pyPath "foo/bar") = "custom" :=
  ⟨rfl, rfl, rfl, rfl⟩

/-- Claim C2, counterexample: the declared string "./~/x" starts with neither
"/" nor "~", so the claimed literal rule classifies it as custom, yet the code
classifies the Path-normalized string "~/x" and yields local (and the entry
even constructs with category local). -/
theorem C2_counterexample :
    pyStartsWith "./~/x" "/" = false ∧
    pyStartsWith "./~/x" "~" = false ∧
    _get_path_category (pyPath "./~/x") = "local" ∧
    (DotfileHandler.init env0 "./~/x").map DotfileHandler.category = .ok "local" :=
  ⟨rfl, rfl, rfl, rfl⟩

/-- Claim C2, amended: classification tests str(Path(input)), the normalized
form, not the raw literal.  A literal "/" prefix still implies global and a
literal "~" prefix still implies local, and custom implies the literal had
neither prefix; but some other literals (those whose leading "." components
are normalized away, such as "./~/x") are classified local rather than
custom. -/
theorem C2_amended_classification (s : String) :
    (pyStartsWith s "/" = true → _get_path_category (pyPath s) = "global") ∧
    (pyStartsWith s "~" = true → _get_path_category (pyPath s) = "local") ∧
    (_get_path_category (pyPath s) = "custom" →
      pyStartsWith s "/" = false ∧ pyStartsWith s "~" = false) := by
  have hg : pyStartsWith s "/" = true → _get_path_category (pyPath s) = "global" := by
    intro hs
    have hdata : ("/").data = ['/'] := rfl
    rw [pyStartsWith, hdata] at hs
    obtain ⟨t, ht⟩ : ∃ t, s.data = '/' :: t := by
      cases e : s.data with
      | nil => rw [e] at hs; simp [List.isPrefixOf] at hs
      | cons a u =>
        rw [e] at hs
        simp [List.isPrefixOf] at hs
        exact ⟨u, by rw [hs]⟩
    have hroot : parseRoot s.data ≠ 0 := by
      rw [ht, parseRoot, if_pos (show ('/' :: t).head? = some '/' from rfl)]
      split <;> simp
    exact category_of_root_ne (pyPath s) hroot
  have hl : pyStartsWith s "~" = true → _get_path_category (pyPath s) = "local" := by
    intro hs
    have hdata : ("~").data = ['~'] := rfl
    rw [pyStartsWith, hdata] at hs
    obtain ⟨t, ht⟩ : ∃ t, s.data = '~' :: t := by
      cases e : s.data with
      | nil => rw [e] at hs; simp [List.isPrefixOf] at hs
      | cons a u =>
        rw [e] at hs
        simp [List.isPrefixOf] at hs
        exact ⟨u, by rw [hs]⟩
    obtain ⟨a, b, e⟩ : ∃ a b, splitSl t = a :: b := by
      cases e : splitSl t with
      | nil => exact absurd e (splitSl_ne_nil t)
      | cons a b => exact ⟨a, b, rfl⟩
    have hsplit : splitSl s.data = ('~' :: a) :: b := by
      rw [ht, splitSl_cons_nonsep '~' t (by decide), e]
      simp
    have hroot : parseRoot s.data = 0 := by
      rw [ht]
      exact parseRoot_cons_nonsep _ _ (by decide)
    have hkt : keepPart ('~' :: a) = true := by
      refine (keepPart_iff _).mpr ⟨by simp, ?_⟩
      intro hcc
      have hchar : '~' = '.' := by injection hcc
      exact absurd hchar (by decide)
    have hparts : parseParts s.data = ('~' :: a) :: List.filter keepPart b := by
      rw [parseParts, hsplit, List.filter_cons, hkt]
      simp
    have hpy : pyPath s = ⟨0, ('~' :: a) :: List.filter keepPart b⟩ := by
      rw [pyPath, hroot, hparts]
    rw [hpy]
    exact category_of_tilde_head a (List.filter keepPart b)
  refine ⟨hg, hl, fun hcat => ⟨?_, ?_⟩⟩
  · cases e : pyStartsWith s "/" with
    | false => rfl
    | true => rw [hg e] at hcat; exact absurd hcat (by decide)
  · cases e : pyStartsWith s "~" with
    | false => rfl
    | true => rw [hl e] at hcat; exact absurd hcat (by decide)

theorem C2_witness :
    _get_path_category (pyPath "/etc/hosts") = "global" ∧
    _get_path_category (pyPath "~/.bashrc") = "local" ∧
    (pyStartsWith "foo/bar" "/" = false ∧ pyStartsWith "foo/bar" "~" = false) :=
  ⟨(C2_amended_classification "/etc/hosts").1 rfl,
   (C2_amended_classification "~/.bashrc").2.1 rfl,
   (C2_amended_classification "foo/bar").2.2 rfl⟩

/-- Claim C3 (code bug): for the push direction, _get_local_src initializes
path_stripped to the empty string and only assigns it when the declared path
starts with "~", so for a global entry declared /etc/hosts it yields
dotfiles/global (the declared path is discarded) instead of the claimed
dotfiles/global/etc/hosts, and for a custom entry declared foo/bar it yields
dotfiles/custom instead of dotfiles/custom/foo/bar; only the local case
(e.g. ~/.bashrc) matches the claim. -/
theorem C3_push_source_drops_declared_path :
    gEntry._get_local_src (pyPath "/etc/hosts") = pyPath "dotfiles/global" ∧
    pyPath "dotfiles/global" ≠ pyPath "dotfiles/global/etc/hosts" ∧
    cEntry._get_local_src (pyPath "foo/bar") = pyPath "dotfiles/custom" ∧
    pyPath "dotfiles/custom" ≠ pyPath "dotfiles/custom/foo/bar" ∧
    entry0._get_local_src (pyPath "~/.bashrc") = pyPath "dotfiles/local/.bashrc" :=
  ⟨rfl, by decide, rfl, by decide, rfl⟩

/-- Claim C4, counterexample: a stat failure that pathlib propagates (a
permission error) is raised by the Path.is_dir call inside update, which sits
outside the try block, so the exception propagates out of the pull operation
instead of being converted into a skip notice; entry0 is the real entry built
for ~/.bashrc. -/
theorem C4_counterexample :
    DotfileHandler.init env0 "~/.bashrc" = .ok entry0 ∧
    entry0.update specFactory (fun _ => FsStat.denied "Permission denied") =
      .error (.osError "Permission denied") :=
  ⟨rfl, rfl⟩

/-- Claim C4, amended: only an exception raised by the handler copy call
(handler.update / handler.bootstrap) is caught and converted into a skip
notice carrying the declared path and the original message; an exception
raised earlier inside the operation (the path-type determination) propagates
out of pull/push, and path resolution and classification run at construction
time, before either operation. -/
theorem C4_amended_skip_boundary (factory : String → Handler) (fs : PyPath → FsStat)
    (self : DotfileHandler) (backup overwrite : Bool) (t : String) (e : PyError) :
    (_get_path_type fs self.absolute = .ok t →
      (factory t).update self.absolute (self._get_local_dest self.absolute) = .error e →
      self.update factory fs = .ok (.skipped self.path.str e.message)) ∧
    (_get_path_type fs (self._get_local_src self.path) = .ok t →
      (factory t).bootstrap (self._get_local_src self.path) self.absolute backup overwrite
          = .error e →
      self.bootstrap factory fs backup overwrite = .ok (.skipped self.path.str e.message)) ∧
    (∀ pe, self.update factory fs = .error pe →
      _get_path_type fs self.absolute = .error pe) ∧
    (∀ pe, self.bootstrap factory fs backup overwrite = .error pe →
      _get_path_type fs (self._get_local_src self.path) = .error pe) := by
  refine ⟨?_, ?_, ?_, ?_⟩
  · intro ht hu
    simp only [DotfileHandler.update, ht, hu]
  · intro ht hb
    simp only [DotfileHandler.bootstrap, ht, hb]
  · intro pe hup
    cases et : _get_path_type fs self.absolute with
    | error e2 =>
      have hval : self.update factory fs = .error e2 := by
        simp only [DotfileHandler.update, et]
      rw [hval] at hup
      injection hup with h3
      rw [h3]
    | ok pt =>
      cases eh : (factory pt).update self.absolute (self._get_local_dest self.absolute) with
      | ok u =>
        have hval : self.update factory fs = .ok .done := by
          simp only [DotfileHandler.update, et, eh]
        rw [hval] at hup
        exact absurd hup (by simp)
      | error e2 =>
        have hval : self.update factory fs = .ok (.skipped self.path.str e2.message) := by
          simp only [DotfileHandler.update, et, eh]
        rw [hval] at hup
        exact absurd hup (by simp)
  · intro pe hbp
    cases et : _get_path_type fs (self._get_local_src self.path) with
    | error e2 =>
      have hval : self.bootstrap factory fs backup overwrite = .error e2 := by
        simp only [DotfileHandler.bootstrap, et]
      rw [hval] at hbp
      injection hbp with h3
      rw [h3]
    | ok pt =>
      cases eh : (factory pt).bootstrap (self._get_local_src self.path) self.absolute
          backup overwrite with
      | ok u =>
        have hval : self.bootstrap factory fs backup overwrite = .ok .done := by
          simp only [DotfileHandler.bootstrap, et, eh]
        rw [hval] at hbp
        exact absurd hbp (by simp)
      | error e2 =>
        have hval : self.bootstrap factory fs backup overwrite
            = .ok (.skipped self.path.str e2.message) := by
          simp only [DotfileHandler.bootstrap, et, eh]
        rw [hval] at hbp
        exact absurd hbp (by simp)

theorem C4_witness :
    entry0.update
        (fun _ => { update := fun _ _ => .error (.osError "boom"),
                    bootstrap := fun _ _ _ _ => .error (.osError "boom") })
        (fun _ => FsStat.file) = .ok (.skipped "~/.bashrc" "boom") ∧
    entry0.bootstrap
        (fun _ => { update := fun _ _ => .error (.osError "boom"),
                    bootstrap := fun _ _ _ _ => .error (.osError "boom") })
        (fun _ => FsStat.file) true true = .ok (.skipped "~/.bashrc" "boom") := by
  constructor
  · exact (C4_amended_skip_boundary
      (fun _ => { update := fun _ _ => .error (.osError "boom"),
                  bootstrap := fun _ _ _ _ => .error (.osError "boom") })
      (fun _ => FsStat.file) entry0 true true "file" (.osError "boom")).1 rfl rfl
  · exact (C4_amended_skip_boundary
      (fun _ => { update := fun _ _ => .error (.osError "boom"),
                  bootstrap := fun _ _ _ _ => .error (.osError "boom") })
      (fun _ => FsStat.file) entry0 true true "file" (.osError "boom")).2.1 rfl rfl

/-- Claim C5: the pull-direction mirror destination is the category sub-root
joined with the appropriate path: dotfiles/global plus the full absolute path
(the leading slash does not duplicate a separator, /etc/hosts giving
dotfiles/global/etc/hosts), dotfiles/local plus the home-relative path, and
dotfiles/custom plus the home-relative path. -/
theorem C5_pull_destination (self : DotfileHandler) (path : PyPath) :
    self.local_base = "dotfiles" →
    ((self.category = "global" → path.WF →
        self._get_local_dest path = ⟨0, "dotfiles".data :: "global".data :: path.parts⟩) ∧
     (self.category = "local" → self.relative.WF →
        self._get_local_dest path
          = ⟨0, "dotfiles".data :: "local".data :: self.relative.parts⟩) ∧
     (self.category = "custom" → self.relative.WF →
        self._get_local_dest path
          = ⟨0, "dotfiles".data :: "custom".data :: self.relative.parts⟩) ∧
     (self.category = "global" →
        self._get_local_dest (pyPath "/etc/hosts") = pyPath "dotfiles/global/etc/hosts")) := by
  intro hlb
  refine ⟨?_, ?_, ?_, ?_⟩
  · intro hcat hwf
    rw [DotfileHandler._get_local_dest, if_pos hcat, hlb]
    have hstr : ("dotfiles" ++ "/global/" ++ path.str)
        = String.mk ("dotfiles".data ++ '/' :: ("global".data ++ '/' :: path.render)) := rfl
    rw [hstr]
    exact pyPath_append_mid "global".data (by decide) (by decide) path hwf
  · intro hcat hwf
    rw [DotfileHandler._get_local_dest, hcat, hlb, if_neg (by decide), if_pos rfl]
    have hstr : ("dotfiles" ++ "/local/" ++ self.relative.str)
        = String.mk ("dotfiles".data ++ '/' :: ("local".data ++ '/' :: self.relative.render))
        := rfl
    rw [hstr]
    exact pyPath_append_mid "local".data (by decide) (by decide) self.relative hwf
  · intro hcat hwf
    rw [DotfileHandler._get_local_dest, hcat, hlb, if_neg (by decide), if_neg (by decide)]
    have hstr : ("dotfiles" ++ "/custom/" ++ self.relative.str)
        = String.mk ("dotfiles".data ++ '/' :: ("custom".data ++ '/' :: self.relative.render))
        := rfl
    rw [hstr]
    exact pyPath_append_mid "custom".data (by decide) (by decide) self.relative hwf
  · intro hcat
    rw [DotfileHandler._get_local_dest, if_pos hcat, hlb]
    rfl

theorem C5_witness :
    gEntry._get_local_dest (pyPath "/etc/hosts")
      = ⟨0, "dotfiles".data :: "global".data :: (pyPath "/etc/hosts").parts⟩ ∧
    entry0._get_local_dest (pyPath "/root/.bashrc")
      = ⟨0, "dotfiles".data :: "local".data :: entry0.relative.parts⟩ ∧
    gEntry._get_local_dest (pyPath "/etc/hosts") = pyPath "dotfiles/global/etc/hosts" :=
  ⟨(C5_pull_destination gEntry (pyPath "/etc/hosts") rfl).1 rfl (pyPath_WF "/etc/hosts"),
   (C5_pull_destination entry0 (pyPath "/root/.bashrc") rfl).2.1 rfl (pyPath_WF ".bashrc"),
   (C5_pull_destination gEntry (pyPath "/etc/hosts") rfl).2.2.2 rfl⟩

/-- Claim C6, counterexample: for /etc/hosts (whose absolute-expanded form is
not under the env0 home /root), _get_relative raises ValueError, not the
claimed PathNotUnderHomeError (the code defines no such error); moreover
/root/.bashrc, whose absolute form does lie under home, also raises, because
the actual trigger is lexical (first component not the literal "~"), not the
not-under-home condition. -/
theorem C6_counterexample :
    _get_relative (pyPath "/etc/hosts") =
      .error (.valueError "/etc/hosts is not in the subpath of ~") ∧
    raisesPathNotUnderHome (_get_relative (pyPath "/etc/hosts")) = false ∧
    _get_relative (pyPath "/root/.bashrc") =
      .error (.valueError "/root/.bashrc is not in the subpath of ~") ∧
    env0.home = pyPath "/root" :=
  ⟨rfl, rfl, rfl, rfl⟩

/-- Claim C6, amended: _get_relative fails with ValueError exactly when the
declared path is not a rootless path whose first component is the literal
"~"; the test is lexical on the declared path (independent of the home
directory and of the absolute-expanded form), and no result ever carries the
PathNotUnderHomeError named by the spec. -/
theorem C6_amended_relative_error (path : PyPath) :
    (¬(path.root = 0 ∧ path.parts.head? = some ['~']) →
      _get_relative path
        = .error (.valueError (path.str ++ " is not in the subpath of ~"))) ∧
    ((path.root = 0 ∧ path.parts.head? = some ['~']) →
      _get_relative path = .ok ⟨0, path.parts.tail⟩) ∧
    raisesPathNotUnderHome (_get_relative path) = false := by
  refine ⟨fun hc => by rw [_get_relative, if_neg hc],
          fun hc => by rw [_get_relative, if_pos hc], ?_⟩
  rw [_get_relative]
  split <;> rfl

theorem C6_witness :
    _get_relative (pyPath "/etc/hosts") =
      .error (.valueError ((pyPath "/etc/hosts").str ++ " is not in the subpath of ~")) :=
  (C6_amended_relative_error (pyPath "/etc/hosts")).1 (by decide)

/-- Claim C7: for every entry the constructor accepts (all of which have
category local), the home-relative form is defined and joining the home
directory onto it gives back the absolute path, provided the home directory
is itself absolute. -/
theorem C7_local_home_join (env : PyEnv) (s : String) (h : DotfileHandler)
    (hh : env.home.root ≠ 0) (hi : DotfileHandler.init env s = .ok h) :
    h.category = "local" ∧ env.home.join h.relative = h.absolute := by
  obtain ⟨rest, h0, hparts, hrec⟩ := init_ok_shape env s h hh hi
  subst hrec
  constructor
  · show _get_path_category (pyPath s) = "local"
    have hps : pyPath s = ⟨0, ['~'] :: rest⟩ := by
      rw [← h0, ← hparts]
    rw [hps]
    exact category_of_tilde_head [] rest
  · show PyPath.join env.home ⟨0, rest⟩ = ⟨env.home.root, env.home.parts ++ rest⟩
    rw [PyPath.join]
    simp

theorem C7_witness :
    env0.home.root ≠ 0 ∧
    (entry0.category = "local" ∧ env0.home.join entry0.relative = entry0.absolute) :=
  ⟨by decide, C7_local_home_join env0 "~/.bashrc" entry0 (by decide) rfl⟩

/-- Claim C8: for the entry declared ~/.bashrc, the pull-direction mirror
destination and the push-direction mirror source are the same path
dotfiles/local/.bashrc, and the push-direction live destination (which is
self.absolute, also the pull-direction live source) is the absolute expansion
of ~/.bashrc, i.e. home joined with .bashrc. -/
theorem C8_bashrc_roundtrip (env : PyEnv) (h : DotfileHandler)
    (hh : env.home.root ≠ 0) (hi : DotfileHandler.init env "~/.bashrc" = .ok h) :
    h._get_local_dest h.absolute = pyPath "dotfiles/local/.bashrc" ∧
    h._get_local_src h.path = pyPath "dotfiles/local/.bashrc" ∧
    h.absolute = env.home.join (pyPath ".bashrc") := by
  obtain ⟨rest, h0, hparts, hrec⟩ := init_ok_shape env "~/.bashrc" h hh hi
  have hrest : rest = [".bashrc".data] := by
    have h2 := hparts
    rw [show (pyPath "~/.bashrc").parts = ['~'] :: [".bashrc".data] from rfl] at h2
    injection h2 with _ h3
    exact h3.symm
  subst hrest
  subst hrec
  refine ⟨rfl, rfl, ?_⟩
  show (⟨env.home.root, env.home.parts ++ [".bashrc".data]⟩ : PyPath)
      = PyPath.join env.home ⟨0, [".bashrc".data]⟩
  rw [PyPath.join]
  simp

theorem C8_witness :
    env0.home.root ≠ 0 ∧
    (entry0._get_local_dest entry0.absolute = pyPath "dotfiles/local/.bashrc" ∧
     entry0._get_local_src entry0.path = pyPath "dotfiles/local/.bashrc" ∧
     entry0.absolute = env0.home.join (pyPath ".bashrc")) :=
  ⟨by decide, C8_bashrc_roundtrip env0 entry0 (by decide) rfl⟩

/-- Claim C9, counterexample: for the declared path "~/../x" under env0, the
computed absolute path is /root/../x, which still contains an unresolved ".."
segment, contradicting the claimed canonical form: Path.absolute() does not
normalize. -/
theorem C9_counterexample :
    (DotfileHandler.init env0 "~/../x").map DotfileHandler.absolute =
      .ok (pyPath "/root/../x") ∧
    ['.', '.'] ∈ (pyPath "/root/../x").parts :=
  ⟨rfl, by decide⟩

/-- Claim C9, amended: the computed absolute path is always absolute (home
expansion is applied first, and a still-relative path gets the current working
directory prefixed, so rootedness holds whenever cwd is absolute), and "."
segments are removed by Path parsing; but ".." segments are not resolved, so
the result is not canonical. -/
theorem C9_amended_absolute_not_canonical :
    (∀ (env : PyEnv) (p q : PyPath), env.cwd.root ≠ 0 →
        _get_absolute env p = .ok q → q.root ≠ 0) ∧
    (∀ s : String, ['.'] ∉ (pyPath s).parts) := by
  constructor
  · intro env p q hcwd habs
    simp only [_get_absolute] at habs
    cases e : expanduser env p with
    | error er => rw [e] at habs; exact absurd habs (by simp)
    | ok x =>
      rw [e] at habs
      simp only [Except.ok.injEq] at habs
      rw [← habs]
      simp only [pyAbsolute]
      split
      · assumption
      · exact hcwd
  · intro s hmem
    exact ((pyPath_WF s) ['.'] hmem).2.1 rfl

theorem C9_witness :
    env0.cwd.root ≠ 0 ∧ (pyPath "/root/x").root ≠ 0 :=
  ⟨by decide,
   C9_amended_absolute_not_canonical.1 env0 (pyPath "~/x") (pyPath "/root/x")
     (by decide) rfl⟩

/-- Claim C10: construction succeeds only when the declared path parses to a
rootless path whose first component is exactly the literal "~"; a declared
path such as ~user/.bashrc is classified local by _get_path_category, yet
construction raises for every environment (RuntimeError from expanduser when
the user is unknown, otherwise ValueError from relative_to). -/
theorem C10_construction_requires_tilde :
    (∀ (env : PyEnv) (s : String) (h : DotfileHandler),
        DotfileHandler.init env s = .ok h →
        (pyPath s).root = 0 ∧ (pyPath s).parts.head? = some ['~']) ∧
    (∀ env : PyEnv,
        (∃ e, DotfileHandler.init env "~user/.bashrc" = .error e) ∧
        _get_path_category (pyPath "~user/.bashrc") = "local") := by
  constructor
  · intro env s h hi
    simp only [DotfileHandler.init] at hi
    rcases _get_relative_cases (pyPath s) with ⟨h0, hhead, _⟩ | ⟨_, hrel⟩
    · exact ⟨h0, hhead⟩
    · cases e1 : _get_absolute env (pyPath s) with
      | error e => rw [e1] at hi; exact absurd hi (by simp)
      | ok a => rw [e1, hrel] at hi; exact absurd hi (by simp)
  · intro env
    refine ⟨?_, rfl⟩
    have hexp : expanduser env (pyPath "~user/.bashrc") =
        match env.users ("user").data with
        | some hd => .ok ⟨hd.root, hd.parts ++ [".bashrc".data]⟩
        | none => .error (.runtimeError "Could not determine home directory.") := rfl
    have hrel : _get_relative (pyPath "~user/.bashrc") =
        .error (.valueError "~user/.bashrc is not in the subpath of ~") := rfl
    cases e : env.users ("user").data with
    | none =>
      refine ⟨.runtimeError "Could not determine home directory.", ?_⟩
      rw [e] at hexp
      simp only [DotfileHandler.init, _get_absolute, hexp]
    | some hd =>
      refine ⟨.valueError "~user/.bashrc is not in the subpath of ~", ?_⟩
      rw [e] at hexp
      simp only [DotfileHandler.init, _get_absolute, hexp, hrel]

theorem C10_witness :
    (pyPath "~/.bashrc").root = 0 ∧ (pyPath "~/.bashrc").parts.head? = some ['~'] :=
  C10_construction_requires_tilde.1 env0 "~/.bashrc" entry0 rfl

end Nomad
